import Mathlib

/-!
Verification of the OrderLimitPlacer2 repository: a shallow embedding in Lean 4
of the TypeScript limit-order scripts (signature compaction, token-amount
formatting, order-hash substitution, balance/approval gating, quoting, fill
execution and revert-error decoding), together with theorems settling the
frozen claims about the specification.

Numbers are embedded as `Nat` (JavaScript `bigint` on the non-negative values
the scripts handle), strings as Lean `String`/`List Char`, thrown exceptions as
`Except`/`Option`, and on-chain state reads/writes as explicit state passing
over small environment records.
-/

set_option maxRecDepth 40000

/-! ## Digit and string primitives shared by the embedding -/

/-- Value of a hexadecimal digit character, `none` when the character is not a
hex digit.  These are exactly the characters accepted inside a JavaScript
`BigInt` hex literal. -/
def hexDigitVal (c : Char) : Option Nat :=
  if '0' ≤ c ∧ c ≤ '9' then some (c.toNat - '0'.toNat)
  else if 'a' ≤ c ∧ c ≤ 'f' then some (c.toNat - 'a'.toNat + 10)
  else if 'A' ≤ c ∧ c ≤ 'F' then some (c.toNat - 'A'.toNat + 10)
  else none

/-- Whether a character is a hexadecimal digit. -/
def isHexDigit (c : Char) : Bool := (hexDigitVal c).isSome

/-- Value of a decimal digit character, `none` when it is not `0`-`9`. -/
def decDigitVal (c : Char) : Option Nat :=
  if '0' ≤ c ∧ c ≤ '9' then some (c.toNat - '0'.toNat) else none

/-- Whether a character is a decimal digit. -/
def isDecDigit (c : Char) : Bool := (decDigitVal c).isSome

/-- Positional value of a digit string, most significant digit first, reading
each character through `dv` (unreadable characters count as 0; the parsing
functions below only apply this to strings whose characters `dv` accepts). -/
def digitsVal (base : Nat) (dv : Char → Option Nat) (l : List Char) : Nat :=
  l.foldl (fun a c => base * a + ((dv c).getD 0)) 0

/-- Value of a hex digit string, most significant first. -/
def hexVal (l : List Char) : Nat := digitsVal 16 hexDigitVal l

/-- Value of a decimal digit string, most significant first. -/
def decVal (l : List Char) : Nat := digitsVal 10 decDigitVal l

/-- Model of JavaScript `BigInt("0x" + s)`: succeeds exactly on nonempty all-hex
strings (otherwise the construction throws a `SyntaxError`). -/
def jsBigIntHex (l : List Char) : Option Nat :=
  if l ≠ [] ∧ l.all isHexDigit then some (hexVal l) else none

/-- Model of JavaScript `BigInt(s)` on a plain decimal string: succeeds on
all-digit strings (the empty string is 0 in JavaScript).  Negative and exotic
numeric strings are outside the inputs this repository produces. -/
def jsBigIntDec (l : List Char) : Option Nat :=
  if l.all isDecDigit then some (decVal l) else none

/-- Model of JavaScript `BigInt(s)` as the scripts use it: a `0x`-prefixed
string is read as hex, anything else as decimal. -/
def jsBigIntOfString (s : String) : Option Nat :=
  match s.toList with
  | '0' :: 'x' :: rest => jsBigIntHex rest
  | l => jsBigIntDec l

/-- Digits of `n` in the given base, most significant first, empty for 0.  The
fuel argument (always at least `n`) makes the recursion structural so that
concrete evaluations reduce inside the kernel. -/
def digitsAux (base : Nat) : Nat → Nat → List Char
  | 0, _ => []
  | fuel+1, n => if n = 0 then [] else digitsAux base fuel (n / base) ++ [Nat.digitChar (n % base)]

/-- Model of JavaScript `bigint.toString(16)` (lowercase hex) for non-negative
values. -/
def natToHex (n : Nat) : List Char := if n = 0 then ['0'] else digitsAux 16 n n

/-- Model of JavaScript `bigint.toString()` (decimal) for non-negative values. -/
def natToDec (n : Nat) : List Char := if n = 0 then ['0'] else digitsAux 10 n n

/-- Model of JavaScript `String.prototype.padStart(width, c)` (never truncates). -/
def padStart (l : List Char) (width : Nat) (c : Char) : List Char :=
  List.replicate (width - l.length) c ++ l

/-- Model of `.replace(/0+$/, "")`: removes the maximal run of trailing zero
characters. -/
def dropTrailingZeros (l : List Char) : List Char :=
  (l.reverse.dropWhile (fun c => c == '0')).reverse

/-! ## Arithmetic facts about the digit primitives -/

theorem hexDigitVal_digitChar : ∀ d : Nat, d < 16 → hexDigitVal (Nat.digitChar d) = some d := by
  decide

theorem decDigitVal_digitChar : ∀ d : Nat, d < 10 → decDigitVal (Nat.digitChar d) = some d := by
  decide

theorem isHexDigit_digitChar : ∀ d : Nat, d < 16 → isHexDigit (Nat.digitChar d) = true := by
  decide

theorem isDecDigit_digitChar : ∀ d : Nat, d < 10 → isDecDigit (Nat.digitChar d) = true := by
  decide

theorem digitsVal_foldl_init (base : Nat) (dv : Char → Option Nat) :
    ∀ (l : List Char) (a : Nat),
      l.foldl (fun a c => base * a + ((dv c).getD 0)) a
        = a * base ^ l.length + digitsVal base dv l := by
  intro l
  induction l with
  | nil => intro a; simp [digitsVal]
  | cons c t ih =>
    intro a
    have h1 := ih (base * a + ((dv c).getD 0))
    have h2 := ih (base * 0 + ((dv c).getD 0))
    simp only [List.foldl_cons, digitsVal] at *
    rw [h1, h2]
    simp [List.length_cons, pow_succ]
    ring

theorem digitsVal_append (base : Nat) (dv : Char → Option Nat) (l1 l2 : List Char) :
    digitsVal base dv (l1 ++ l2)
      = digitsVal base dv l1 * base ^ l2.length + digitsVal base dv l2 := by
  simp only [digitsVal, List.foldl_append]
  have h := digitsVal_foldl_init base dv l2 (List.foldl (fun a c => base * a + ((dv c).getD 0)) 0 l1)
  simpa [digitsVal] using h

theorem digitsVal_replicate_zero (base : Nat) (dv : Char → Option Nat) (k : Nat)
    (c : Char) (hc : (dv c).getD 0 = 0) :
    digitsVal base dv (List.replicate k c) = 0 := by
  induction k with
  | zero => simp [digitsVal]
  | succ n ih =>
    rw [List.replicate_succ]
    simp only [digitsVal, List.foldl_cons] at *
    simpa [hc] using ih

theorem digitsVal_padStart (base : Nat) (dv : Char → Option Nat) (l : List Char)
    (width : Nat) (c : Char) (hc : (dv c).getD 0 = 0) :
    digitsVal base dv (padStart l width c) = digitsVal base dv l := by
  unfold padStart
  rw [digitsVal_append, digitsVal_replicate_zero base dv _ c hc]
  simp

theorem digitsAux_val (base : Nat) (dv : Char → Option Nat)
    (hdv : ∀ d : Nat, d < base → dv (Nat.digitChar d) = some d) (hbase : 2 ≤ base) :
    ∀ fuel n : Nat, n ≤ fuel → digitsVal base dv (digitsAux base fuel n) = n := by
  intro fuel
  induction fuel with
  | zero =>
    intro n h
    have : n = 0 := Nat.le_zero.mp h
    simp [digitsAux, this, digitsVal]
  | succ f ih =>
    intro n h
    by_cases h0 : n = 0
    · simp [digitsAux, h0, digitsVal]
    · have hpos : 0 < n := Nat.pos_of_ne_zero h0
      have hdiv : n / base < n := Nat.div_lt_self hpos (by omega)
      have hle : n / base ≤ f := by omega
      unfold digitsAux
      rw [if_neg h0, digitsVal_append, ih (n / base) hle]
      have hmod : n % base < base := Nat.mod_lt n (by omega)
      have hdm : n / base * base + n % base = n := Nat.div_add_mod' n base
      simp [digitsVal, hdv (n % base) hmod, pow_one]
      omega

theorem digitsAux_all (base : Nat) (p : Char → Bool)
    (hp : ∀ d : Nat, d < base → p (Nat.digitChar d) = true) (hbase : 2 ≤ base) :
    ∀ fuel n : Nat, n ≤ fuel → (digitsAux base fuel n).all p = true := by
  intro fuel
  induction fuel with
  | zero =>
    intro n h
    have : n = 0 := Nat.le_zero.mp h
    simp [digitsAux, this]
  | succ f ih =>
    intro n h
    by_cases h0 : n = 0
    · simp [digitsAux, h0]
    · have hpos : 0 < n := Nat.pos_of_ne_zero h0
      have hdiv : n / base < n := Nat.div_lt_self hpos (by omega)
      unfold digitsAux
      rw [if_neg h0]
      rw [List.all_append]
      have h1 := ih (n / base) (by omega)
      have h2 := hp (n % base) (Nat.mod_lt n (by omega))
      simp [h1, h2]

theorem digitsAux_length (base : Nat) (hbase : 2 ≤ base) :
    ∀ fuel n k : Nat, n ≤ fuel → n < base ^ k → (digitsAux base fuel n).length ≤ k := by
  intro fuel
  induction fuel with
  | zero =>
    intro n k h hk
    have : n = 0 := Nat.le_zero.mp h
    simp [digitsAux, this]
  | succ f ih =>
    intro n k h hk
    by_cases h0 : n = 0
    · simp [digitsAux, h0]
    · have hpos : 0 < n := Nat.pos_of_ne_zero h0
      have hkpos : 0 < k := by
        by_contra hknot
        have hk0 : k = 0 := by omega
        rw [hk0] at hk
        simp at hk
        omega
      have hdivlt : n / base < base ^ (k - 1) := by
        have hbpos : 0 < base := by omega
        rw [Nat.div_lt_iff_lt_mul hbpos]
        have : base ^ (k - 1) * base = base ^ k := by
          conv_rhs => rw [show k = (k - 1) + 1 by omega]
          rw [Nat.pow_succ]
        omega
      have hdiv : n / base < n := Nat.div_lt_self hpos (by omega)
      unfold digitsAux
      rw [if_neg h0]
      rw [List.length_append]
      have := ih (n / base) (k - 1) (by omega) hdivlt
      simp
      omega

theorem hexVal_natToHex (n : Nat) : hexVal (natToHex n) = n := by
  unfold natToHex
  by_cases h0 : n = 0
  · subst h0; decide
  · rw [if_neg h0]
    exact digitsAux_val 16 hexDigitVal hexDigitVal_digitChar (by omega) n n (Nat.le_refl n)

theorem decVal_natToDec (n : Nat) : decVal (natToDec n) = n := by
  unfold natToDec
  by_cases h0 : n = 0
  · subst h0; decide
  · rw [if_neg h0]
    exact digitsAux_val 10 decDigitVal decDigitVal_digitChar (by omega) n n (Nat.le_refl n)

theorem natToHex_all_hex (n : Nat) : (natToHex n).all isHexDigit = true := by
  unfold natToHex
  by_cases h0 : n = 0
  · subst h0; decide
  · rw [if_neg h0]
    exact digitsAux_all 16 isHexDigit isHexDigit_digitChar (by omega) n n (Nat.le_refl n)

theorem natToDec_all_dec (n : Nat) : (natToDec n).all isDecDigit = true := by
  unfold natToDec
  by_cases h0 : n = 0
  · subst h0; decide
  · rw [if_neg h0]
    exact digitsAux_all 10 isDecDigit isDecDigit_digitChar (by omega) n n (Nat.le_refl n)

theorem natToDec_length_le (n k : Nat) (h : n < 10 ^ k) (hk : 0 < k) :
    (natToDec n).length ≤ k := by
  unfold natToDec
  by_cases h0 : n = 0
  · simp [h0]; omega
  · rw [if_neg h0]
    exact digitsAux_length 10 (by omega) n n k (Nat.le_refl n) h

theorem natToHex_length_le (n k : Nat) (h : n < 16 ^ k) (hk : 0 < k) :
    (natToHex n).length ≤ k := by
  unfold natToHex
  by_cases h0 : n = 0
  · simp [h0]; omega
  · rw [if_neg h0]
    exact digitsAux_length 16 (by omega) n n k (Nat.le_refl n) h

/-! ## Trailing-zero stripping and list splitting facts -/

theorem head_dropWhile_false (p : Char → Bool) (l : List Char) (c : Char)
    (h : (l.dropWhile p).head? = some c) : p c = false := by
  have hw := List.head?_dropWhile_not p l
  rw [h] at hw
  exact hw

theorem takeWhile_zero_replicate :
    ∀ l : List Char,
      l.takeWhile (fun c => c == '0')
        = List.replicate (l.takeWhile (fun c => c == '0')).length '0' := by
  intro l
  induction l with
  | nil => simp
  | cons a t ih =>
    by_cases ha : (a == '0') = true
    · have ha2 : a = '0' := by simpa using ha
      rw [List.takeWhile_cons_of_pos (p := fun c => c == '0') (l := t) ha]
      rw [List.length_cons, List.replicate_succ, ha2]
      exact congrArg (List.cons '0') ih
    · rw [List.takeWhile_cons_of_neg (p := fun c => c == '0') (l := t) (by simpa using ha)]
      simp

theorem dtz_decomp (l : List Char) :
    ∃ k : Nat, l = dropTrailingZeros l ++ List.replicate k '0' := by
  refine ⟨(l.reverse.takeWhile (fun c => c == '0')).length, ?_⟩
  unfold dropTrailingZeros
  conv_lhs => rw [← l.reverse_reverse]
  conv_lhs => rw [← List.takeWhile_append_dropWhile (p := fun c => c == '0') (l := l.reverse)]
  rw [List.reverse_append]
  congr 1
  conv_lhs => rw [takeWhile_zero_replicate l.reverse]
  simp

theorem dtz_length_le (l : List Char) : (dropTrailingZeros l).length ≤ l.length := by
  unfold dropTrailingZeros
  have h := congrArg List.length
    (List.takeWhile_append_dropWhile (p := fun c => c == '0') (l := l.reverse))
  rw [List.length_append] at h
  simp only [List.length_reverse] at h ⊢
  omega

theorem dtz_last_ne_zero (l : List Char) (c : Char)
    (h : (dropTrailingZeros l).getLast? = some c) : c ≠ '0' := by
  unfold dropTrailingZeros at h
  rw [List.getLast?_reverse] at h
  have := head_dropWhile_false (fun c => c == '0') l.reverse c h
  simpa using this

theorem takeWhile_of_all {p : Char → Bool} :
    ∀ l : List Char, l.all p = true → l.takeWhile p = l := by
  intro l
  induction l with
  | nil => simp
  | cons a t ih =>
    intro h
    simp only [List.all_cons, Bool.and_eq_true] at h
    rw [List.takeWhile_cons_of_pos h.1, ih h.2]

theorem dropWhile_of_all {p : Char → Bool} :
    ∀ l : List Char, l.all p = true → l.dropWhile p = [] := by
  intro l
  induction l with
  | nil => simp
  | cons a t ih =>
    intro h
    simp only [List.all_cons, Bool.and_eq_true] at h
    rw [List.dropWhile_cons_of_pos h.1]
    exact ih h.2

theorem takeWhile_append_stop {p : Char → Bool} (W Q : List Char) (d : Char)
    (hW : W.all p = true) (hd : p d = false) :
    (W ++ d :: Q).takeWhile p = W ∧ (W ++ d :: Q).dropWhile p = d :: Q := by
  induction W with
  | nil =>
    constructor
    · simpa using List.takeWhile_cons_of_neg (p := p) (l := Q) (by simp [hd])
    · simpa using List.dropWhile_cons_of_neg (p := p) (l := Q) (by simp [hd])
  | cons a t ih =>
    simp only [List.all_cons, Bool.and_eq_true] at hW
    obtain ⟨h1, h2⟩ := ih hW.2
    constructor
    · rw [List.cons_append, List.takeWhile_cons_of_pos hW.1, h1]
    · rw [List.cons_append, List.dropWhile_cons_of_pos hW.1, h2]

theorem all_dec_no_dot (l : List Char) (h : l.all isDecDigit = true) :
    l.all (fun c => !(c == '.')) = true := by
  rw [List.all_eq_true] at h ⊢
  intro c hc
  have hd := h c hc
  by_cases hdot : c = '.'
  · subst hdot
    simp [isDecDigit, decDigitVal] at hd
  · simpa using hdot

/-! ## formatTokenAmount (src/config.ts) and claim C4 -/

/-- Shallow embedding of `formatTokenAmount` from `src/config.ts`: split the
amount by `10 ^ decimals`, render the fractional part left-padded with zeros,
strip trailing zeros, and append the optional symbol. -/
def formatTokenAmount (amount : Nat) (decimals : Nat) (symbol : Option String) : String :=
  let divisor := 10 ^ decimals
  let whole := amount / divisor
  let fraction := amount % divisor
  let fractionStr := dropTrailingZeros (padStart (natToDec fraction) decimals '0')
  let formatted :=
    if fractionStr ≠ [] then String.mk (natToDec whole ++ '.' :: fractionStr)
    else String.mk (natToDec whole)
  match symbol with
  | some sym => formatted ++ " " ++ sym
  | none => formatted

/-- Modelled from the spec: parsing a formatted token amount back with the same
number of decimals (the inverse direction performed by the external viem
`parseUnits` helper): digits before the dot are scaled by `10 ^ decimals` and
each fractional digit fills the next lower position. -/
def parseTokenAmount (s : String) (decimals : Nat) : Nat :=
  decVal (s.toList.takeWhile (fun c => !(c == '.'))) * 10 ^ decimals +
    decVal (((s.toList.dropWhile (fun c => !(c == '.'))).drop 1).take decimals) *
      10 ^ (decimals - (((s.toList.dropWhile (fun c => !(c == '.'))).drop 1).take decimals).length)

theorem decVal_padStart_zero (l : List Char) (width : Nat) :
    decVal (padStart l width '0') = decVal l := by
  unfold decVal
  exact digitsVal_padStart 10 decDigitVal l width '0' (by decide)

theorem hexVal_padStart_zero (l : List Char) (width : Nat) :
    hexVal (padStart l width '0') = hexVal l := by
  unfold hexVal
  exact digitsVal_padStart 16 hexDigitVal l width '0' (by decide)

theorem padStart_length (l : List Char) (width : Nat) (c : Char) :
    (padStart l width c).length = max width l.length := by
  unfold padStart
  simp [List.length_append, List.length_replicate]
  omega

/-- C4: round-trip and trailing-zero stripping for formatTokenAmount.  Parsing
the formatted string back with the same number of decimals recovers the amount,
and whenever the output has a fractional part (a dot), its last character is a
nonzero digit. -/
theorem c4_format_round_trip (amount decimals : Nat) :
    parseTokenAmount (formatTokenAmount amount decimals none) decimals = amount ∧
    ('.' ∈ (formatTokenAmount amount decimals none).toList →
      ∀ c : Char, (formatTokenAmount amount decimals none).toList.getLast? = some c →
        c ≠ '0') := by
  have hpow : 0 < 10 ^ decimals := Nat.pos_pow_of_pos decimals (by omega)
  have hf : amount % 10 ^ decimals < 10 ^ decimals := Nat.mod_lt amount hpow
  have hwf : amount / 10 ^ decimals * 10 ^ decimals + amount % 10 ^ decimals = amount :=
    Nat.div_add_mod' amount (10 ^ decimals)
  have hfmt : formatTokenAmount amount decimals none =
      (if dropTrailingZeros (padStart (natToDec (amount % 10 ^ decimals)) decimals '0') ≠ [] then
        String.mk (natToDec (amount / 10 ^ decimals) ++ '.' ::
          dropTrailingZeros (padStart (natToDec (amount % 10 ^ decimals)) decimals '0'))
      else String.mk (natToDec (amount / 10 ^ decimals))) := rfl
  obtain ⟨k, hPk⟩ := dtz_decomp (padStart (natToDec (amount % 10 ^ decimals)) decimals '0')
  have hPval : decVal (padStart (natToDec (amount % 10 ^ decimals)) decimals '0')
      = amount % 10 ^ decimals := by
    rw [decVal_padStart_zero, decVal_natToDec]
  have hPsplit : decVal (padStart (natToDec (amount % 10 ^ decimals)) decimals '0')
      = decVal (dropTrailingZeros (padStart (natToDec (amount % 10 ^ decimals)) decimals '0'))
          * 10 ^ k := by
    conv_lhs => rw [hPk]
    unfold decVal
    rw [digitsVal_append]
    rw [digitsVal_replicate_zero 10 decDigitVal k '0' (by decide)]
    simp [List.length_replicate]
  by_cases hQ : dropTrailingZeros (padStart (natToDec (amount % 10 ^ decimals)) decimals '0') = []
  · rw [hfmt, if_neg (by simpa using hQ)]
    have hzero : amount % 10 ^ decimals = 0 := by
      rw [← hPval, hPsplit, hQ]
      simp [decVal, digitsVal]
    constructor
    · unfold parseTokenAmount
      have htl : (String.mk (natToDec (amount / 10 ^ decimals))).toList
          = natToDec (amount / 10 ^ decimals) := rfl
      rw [htl]
      have hall := all_dec_no_dot _ (natToDec_all_dec (amount / 10 ^ decimals))
      rw [takeWhile_of_all _ hall, dropWhile_of_all _ hall]
      simp only [List.drop_nil, List.take_nil, List.length_nil]
      rw [decVal_natToDec]
      have hnil : decVal ([] : List Char) = 0 := rfl
      rw [hnil]
      omega
    · intro hdot
      exfalso
      have htl : (String.mk (natToDec (amount / 10 ^ decimals))).toList
          = natToDec (amount / 10 ^ decimals) := rfl
      rw [htl] at hdot
      have := (List.all_eq_true.mp (natToDec_all_dec (amount / 10 ^ decimals))) '.' hdot
      simp [isDecDigit, decDigitVal] at this
  · rw [hfmt, if_pos (by simpa using hQ)]
    have hdpos : 0 < decimals := by
      by_contra hd0
      have hd0' : decimals = 0 := by omega
      apply hQ
      rw [hd0'] at hf ⊢
      have : amount % 10 ^ 0 = 0 := by omega
      rw [this]
      decide
    have hlenP : (padStart (natToDec (amount % 10 ^ decimals)) decimals '0').length
        = decimals := by
      rw [padStart_length]
      have := natToDec_length_le (amount % 10 ^ decimals) decimals hf hdpos
      omega
    have hQlen : (dropTrailingZeros
        (padStart (natToDec (amount % 10 ^ decimals)) decimals '0')).length ≤ decimals := by
      have := dtz_length_le (padStart (natToDec (amount % 10 ^ decimals)) decimals '0')
      omega
    have hk : (dropTrailingZeros
        (padStart (natToDec (amount % 10 ^ decimals)) decimals '0')).length + k
        = decimals := by
      have := congrArg List.length hPk
      rw [List.length_append, List.length_replicate] at this
      omega
    constructor
    · unfold parseTokenAmount
      have htl : (String.mk (natToDec (amount / 10 ^ decimals) ++ '.' ::
          dropTrailingZeros (padStart (natToDec (amount % 10 ^ decimals)) decimals '0'))).toList
          = natToDec (amount / 10 ^ decimals) ++ '.' ::
            dropTrailingZeros (padStart (natToDec (amount % 10 ^ decimals)) decimals '0') := rfl
      rw [htl]
      have hall := all_dec_no_dot _ (natToDec_all_dec (amount / 10 ^ decimals))
      obtain ⟨htake, hdrop⟩ := takeWhile_append_stop (p := fun c => !(c == '.'))
        (natToDec (amount / 10 ^ decimals))
        (dropTrailingZeros (padStart (natToDec (amount % 10 ^ decimals)) decimals '0'))
        '.' hall (by decide)
      rw [htake, hdrop]
      simp only [List.drop_succ_cons, List.drop_zero]
      rw [List.take_of_length_le hQlen]
      rw [decVal_natToDec]
      have hfrac : decVal (dropTrailingZeros
            (padStart (natToDec (amount % 10 ^ decimals)) decimals '0'))
          * 10 ^ (decimals - (dropTrailingZeros
            (padStart (natToDec (amount % 10 ^ decimals)) decimals '0')).length)
          = amount % 10 ^ decimals := by
        have hkk : decimals - (dropTrailingZeros
            (padStart (natToDec (amount % 10 ^ decimals)) decimals '0')).length = k := by
          omega
        rw [hkk, ← hPsplit, hPval]
      omega
    · intro _ c hc
      have htl : (String.mk (natToDec (amount / 10 ^ decimals) ++ '.' ::
          dropTrailingZeros (padStart (natToDec (amount % 10 ^ decimals)) decimals '0'))).toList
          = natToDec (amount / 10 ^ decimals) ++ '.' ::
            dropTrailingZeros (padStart (natToDec (amount % 10 ^ decimals)) decimals '0') := rfl
      rw [htl] at hc
      rw [List.getLast?_append] at hc
      have hQlast : (('.' :: dropTrailingZeros
          (padStart (natToDec (amount % 10 ^ decimals)) decimals '0')).getLast?) =
          (dropTrailingZeros
            (padStart (natToDec (amount % 10 ^ decimals)) decimals '0')).getLast? := by
        have : ('.' :: dropTrailingZeros
            (padStart (natToDec (amount % 10 ^ decimals)) decimals '0'))
            = ['.'] ++ dropTrailingZeros
              (padStart (natToDec (amount % 10 ^ decimals)) decimals '0') := rfl
        rw [this, List.getLast?_append]
        have hsome : (dropTrailingZeros
            (padStart (natToDec (amount % 10 ^ decimals)) decimals '0')).getLast?.isSome := by
          rw [List.getLast?_isSome]
          exact hQ
        cases hg : (dropTrailingZeros
            (padStart (natToDec (amount % 10 ^ decimals)) decimals '0')).getLast? with
        | none => rw [hg] at hsome; simp at hsome
        | some q => simp [hg]
      rw [hQlast] at hc
      cases hg : (dropTrailingZeros
          (padStart (natToDec (amount % 10 ^ decimals)) decimals '0')).getLast? with
      | none => rw [List.getLast?_eq_none_iff] at hg; exact absurd hg hQ
      | some q =>
        rw [hg] at hc
        simp at hc
        subst hc
        exact dtz_last_ne_zero _ _ hg

/-- Witness for C4 at the spec's own example: 1000000 base units with 6
decimals formats to "1" and parses back to 1000000. -/
theorem c4_format_round_trip_witness :
    parseTokenAmount (formatTokenAmount 1000000 6 none) 6 = 1000000 ∧
    formatTokenAmount 1000000 6 none = "1" :=
  ⟨(c4_format_round_trip 1000000 6).1, by decide⟩

/-! ## parseSignatureToCompact (src/lib/order.ts) and claims C1 and C2 -/

theorem lor_two_pow_of_lt {s n : Nat} (h : s < 2 ^ n) : s ||| 2 ^ n = s + 2 ^ n := by
  apply Nat.eq_of_testBit_eq
  intro i
  rw [Nat.testBit_or]
  rw [Nat.add_comm s (2 ^ n)]
  rcases Nat.lt_trichotomy i n with hlt | heq | hgt
  · rw [Nat.testBit_two_pow_add_gt hlt]
    rw [Nat.testBit_two_pow]
    simp [Nat.ne_of_gt hlt]
  · subst heq
    rw [Nat.testBit_two_pow_add_eq]
    rw [Nat.testBit_lt_two_pow h]
    rw [Nat.testBit_two_pow_self]
    simp
  · have h1 : s < 2 ^ i := lt_of_lt_of_le h (Nat.pow_le_pow_right (by omega) (by omega))
    have h2 : 2 ^ n + s < 2 ^ i := by
      have hstep : 2 ^ n + s < 2 ^ (n + 1) := by
        have : 2 ^ (n + 1) = 2 ^ n + 2 ^ n := by ring
        omega
      have : 2 ^ (n + 1) ≤ 2 ^ i := Nat.pow_le_pow_right (by omega) (by omega)
      omega
    rw [Nat.testBit_lt_two_pow h1, Nat.testBit_lt_two_pow h2]
    rw [Nat.testBit_two_pow]
    simp
    omega

/-- The hex body of a signature string: an optional leading `0x` removed
(model of `signature.startsWith("0x") ? signature.slice(2) : signature`). -/
def stripHexMark (signature : String) : List Char :=
  match signature.toList with
  | '0' :: 'x' :: rest => rest
  | l => l

/-- Model of JavaScript `parseInt(s, 16)`: skip leading whitespace, read an
optional sign, drop an optional `0x`/`0X` mark, then take the longest run of
hex digits; `none` models NaN. -/
def jsParseIntHex (l : List Char) : Option Int :=
  let l1 := l.dropWhile (fun c => c == ' ' || c == '\t' || c == '\n' || c == '\r')
  let neg := l1.head? == some '-'
  let l2 := if l1.head? == some '-' || l1.head? == some '+' then l1.drop 1 else l1
  let l3 := match l2 with
    | '0' :: 'x' :: rest => rest
    | '0' :: 'X' :: rest => rest
    | rest => rest
  let digits := l3.takeWhile isHexDigit
  if digits.isEmpty then none
  else if neg then some (-(hexVal digits : Int)) else some ((hexVal digits : Int))

/-- Shallow embedding of `parseSignatureToCompact` from `src/lib/order.ts`:
strip an optional `0x`, require exactly 130 hex characters, split off r (first
64 chars), s (next 64 chars) and v (last 2 chars, read by `parseInt` base 16);
when v is exactly 28 the compact vs is s with bit 255 set, otherwise s
unchanged; both results are 0x-prefixed 64-digit hex strings.  The two error
branches model the thrown length error and the `BigInt` conversion failure on a
non-hex s slice. -/
def parseSignatureToCompact (signature : String) : Except String (String × String) :=
  if (stripHexMark signature).length ≠ 130 then
    .error ("Invalid signature length: expected 130 hex chars, got "
      ++ toString (stripHexMark signature).length)
  else
    match jsBigIntHex (((stripHexMark signature).drop 64).take 64) with
    | none => .error "Cannot convert string to a BigInt"
    | some sVal =>
      .ok (String.mk ('0' :: 'x' :: (stripHexMark signature).take 64),
        String.mk ('0' :: 'x' :: padStart (natToHex
          (if jsParseIntHex (((stripHexMark signature).drop 128).take 2) = some 28
           then sVal ||| (1 <<< 255) else sVal)) 64 '0'))

/-- Reconstruction direction for the compact representation: the high bit of a
vs value selects v = 28 and is cleared to recover s. -/
def splitVs (vsVal : Nat) : Nat × Nat :=
  if 2 ^ 255 ≤ vsVal then (vsVal - 2 ^ 255, 28) else (vsVal, 27)

theorem jsBigIntHex_some {l : List Char} {v : Nat} (h : jsBigIntHex l = some v) :
    v = hexVal l ∧ l ≠ [] ∧ l.all isHexDigit = true := by
  unfold jsBigIntHex at h
  split at h
  · rename_i hcond
    simp at h
    exact ⟨h.symm, hcond.1, hcond.2⟩
  · simp at h

/-- C1 (amended): for every signature string accepted by
parseSignatureToCompact, r is the 0x-prefixed first 64 hex chars, the numeric
value of vs equals s with bit 255 set when v parses to 28 and s unchanged
otherwise, and — provided s is below 2^255 and v is 27 or 28 — the pair (s, v)
is recovered from vs by reading and clearing the high bit (r is carried
verbatim). -/
theorem c1_compact_signature (sig r vs : String)
    (h : parseSignatureToCompact sig = .ok (r, vs)) :
    r = String.mk ('0' :: 'x' :: (stripHexMark sig).take 64) ∧
    hexVal (vs.toList.drop 2) =
      (if jsParseIntHex (((stripHexMark sig).drop 128).take 2) = some 28
       then hexVal (((stripHexMark sig).drop 64).take 64) ||| 2 ^ 255
       else hexVal (((stripHexMark sig).drop 64).take 64)) ∧
    (hexVal (((stripHexMark sig).drop 64).take 64) < 2 ^ 255 →
      ∀ vb : Int, jsParseIntHex (((stripHexMark sig).drop 128).take 2) = some vb →
        (vb = 27 ∨ vb = 28) →
        splitVs (hexVal (vs.toList.drop 2)) =
          (hexVal (((stripHexMark sig).drop 64).take 64), vb.toNat)) := by
  unfold parseSignatureToCompact at h
  split at h
  · simp at h
  · rename_i hlen
    cases hbig : jsBigIntHex (((stripHexMark sig).drop 64).take 64) with
    | none => rw [hbig] at h; simp at h
    | some sVal =>
      rw [hbig] at h
      simp only [Except.ok.injEq, Prod.mk.injEq] at h
      obtain ⟨hr, hvs⟩ := h
      obtain ⟨hsval, _, _⟩ := jsBigIntHex_some hbig
      subst hsval
      have hshift : (1 <<< 255 : Nat) = 2 ^ 255 := by decide
      have hvslist : vs.toList.drop 2 = padStart (natToHex
          (if jsParseIntHex (((stripHexMark sig).drop 128).take 2) = some 28
           then hexVal (((stripHexMark sig).drop 64).take 64) ||| (1 <<< 255)
           else hexVal (((stripHexMark sig).drop 64).take 64))) 64 '0' := by
        rw [← hvs]
        rfl
      have hvsval : hexVal (vs.toList.drop 2) =
          (if jsParseIntHex (((stripHexMark sig).drop 128).take 2) = some 28
           then hexVal (((stripHexMark sig).drop 64).take 64) ||| 2 ^ 255
           else hexVal (((stripHexMark sig).drop 64).take 64)) := by
        rw [hvslist, hexVal_padStart_zero, hexVal_natToHex, hshift]
      refine ⟨hr.symm, hvsval, ?_⟩
      intro hslow vb hvb hv2728
      rw [hvsval]
      cases hv2728 with
      | inl h27 =>
        subst h27
        have hcond : ¬ (jsParseIntHex (((stripHexMark sig).drop 128).take 2) = some 28) := by
          rw [hvb]; intro hc; simp at hc
        rw [if_neg hcond]
        unfold splitVs
        rw [if_neg (by omega)]
        simp
      | inr h28 =>
        subst h28
        rw [if_pos hvb]
        rw [lor_two_pow_of_lt hslow]
        unfold splitVs
        rw [if_pos (by omega)]
        simp

/-- Concrete accepted signature for the C1 witness: r of 64 ones, s equal to 7,
recovery byte 1c (v = 28). -/
def c1SigExample : String :=
  String.mk ('0' :: 'x' :: (List.replicate 64 '1' ++ (List.replicate 63 '0' ++ ['7'])
    ++ ['1', 'c']))

/-- Witness for C1: the amended theorem applied to `c1SigExample` recovers
s = 7 and v = 28 from the compact vs value. -/
theorem c1_compact_signature_witness : splitVs (2 ^ 255 + 7) = (7, 28) := by
  have h := c1_compact_signature c1SigExample
    (String.mk ('0' :: 'x' :: List.replicate 64 '1'))
    (String.mk ('0' :: 'x' :: '8' :: (List.replicate 62 '0' ++ ['7'])))
    (by rfl)
  have h3 := h.2.2 (by decide) 28 (by rfl) (Or.inr rfl)
  have e1 : hexVal ((String.mk ('0' :: 'x' :: '8' ::
      (List.replicate 62 '0' ++ ['7']))).toList.drop 2) = 2 ^ 255 + 7 := by decide
  have e2 : hexVal (((stripHexMark c1SigExample).drop 64).take 64) = 7 := by decide
  rw [e1, e2] at h3
  simpa using h3

/-- A reconstruction function for the claim's round trip: from the output pair
(r, vs) it must recover the s value and the recovery byte of every accepted
input signature. -/
def recoversSV (g : String × String → Nat × Nat) : Prop :=
  ∀ sig r vs, parseSignatureToCompact sig = .ok (r, vs) →
    g (r, vs) = (hexVal (((stripHexMark sig).drop 64).take 64),
      ((jsParseIntHex (((stripHexMark sig).drop 128).take 2)).getD 0).toNat)

/-- Accepted signature with s = 2^255 and v = 27. -/
def c1SigHighS : String :=
  String.mk ('0' :: 'x' :: (List.replicate 64 '0' ++ ('8' :: List.replicate 63 '0')
    ++ ['1', 'b']))

/-- Accepted signature with s = 0 and v = 28. -/
def c1SigZeroS : String :=
  String.mk ('0' :: 'x' :: (List.replicate 64 '0' ++ List.replicate 64 '0'
    ++ ['1', 'c']))

/-- Counterexample to C1 as stated: two accepted 65-byte signatures with
different (s, v) — s = 2^255, v = 27 versus s = 0, v = 28 — compact to the
same (r, vs), so no function can reconstruct (r, s, v) from (r, vs) for every
accepted signature. -/
theorem c1_reconstruction_counterexample :
    parseSignatureToCompact c1SigHighS = parseSignatureToCompact c1SigZeroS ∧
    hexVal (((stripHexMark c1SigHighS).drop 64).take 64) ≠
      hexVal (((stripHexMark c1SigZeroS).drop 64).take 64) ∧
    ¬ ∃ g : String × String → Nat × Nat, recoversSV g := by
  refine ⟨by rfl, by decide, ?_⟩
  rintro ⟨g, hg⟩
  have hA := hg c1SigHighS
    (String.mk ('0' :: 'x' :: List.replicate 64 '0'))
    (String.mk ('0' :: 'x' :: '8' :: List.replicate 63 '0')) (by rfl)
  have hB := hg c1SigZeroS
    (String.mk ('0' :: 'x' :: List.replicate 64 '0'))
    (String.mk ('0' :: 'x' :: '8' :: List.replicate 63 '0')) (by rfl)
  have hcontr := hA.symm.trans hB
  exact absurd (congrArg Prod.snd hcontr) (by decide)

/-- C2 (amended): parseSignatureToCompact errors exactly when the stripped hex
length differs from 130 or the s slice (chars 64 to 127) contains a character
that is not a hex digit; an accepted input always yields an (r, vs) pair. -/
theorem c2_error_condition (signature : String) :
    (∃ e, parseSignatureToCompact signature = .error e) ↔
      ((stripHexMark signature).length ≠ 130 ∨
        ¬ (((stripHexMark signature).drop 64).take 64).all isHexDigit = true) := by
  constructor
  · rintro ⟨e, he⟩
    by_cases hlen : (stripHexMark signature).length ≠ 130
    · exact Or.inl hlen
    · right
      unfold parseSignatureToCompact at he
      rw [if_neg hlen] at he
      cases hbig : jsBigIntHex (((stripHexMark signature).drop 64).take 64) with
      | none =>
        unfold jsBigIntHex at hbig
        split at hbig
        · simp at hbig
        · rename_i hcond
          intro hall
          apply hcond
          constructor
          · have h130 : (stripHexMark signature).length = 130 := by omega
            have : (((stripHexMark signature).drop 64).take 64).length = 64 := by
              rw [List.length_take, List.length_drop, h130]
              decide
            intro hnil
            rw [hnil] at this
            simp at this
          · exact hall
      | some sVal => rw [hbig] at he; simp at he
  · intro hcase
    by_cases hlen : (stripHexMark signature).length ≠ 130
    · refine ⟨"Invalid signature length: expected 130 hex chars, got "
        ++ toString (stripHexMark signature).length, ?_⟩
      unfold parseSignatureToCompact
      rw [if_pos hlen]
    · have hbad : ¬ (((stripHexMark signature).drop 64).take 64).all isHexDigit = true := by
        rcases hcase with h | h
        · exact absurd h hlen
        · exact h
      refine ⟨"Cannot convert string to a BigInt", ?_⟩
      unfold parseSignatureToCompact
      rw [if_neg hlen]
      have hnone : jsBigIntHex (((stripHexMark signature).drop 64).take 64) = none := by
        unfold jsBigIntHex
        rw [if_neg]
        intro hc
        exact hbad hc.2
      rw [hnone]

/-- Witness for C2: a 129-character input is rejected. -/
theorem c2_error_condition_witness :
    ∃ e, parseSignatureToCompact (String.mk (List.replicate 129 'a')) = .error e :=
  (c2_error_condition (String.mk (List.replicate 129 'a'))).mpr (Or.inl (by decide))

/-- Counterexample to C2 as stated: an input of exactly 130 hex-length
characters (all 'z') still raises an error, because the s slice is not valid
hex for the BigInt conversion; so "length differs from 130" is not the only
error condition. -/
theorem c2_error_counterexample :
    (stripHexMark (String.mk (List.replicate 130 'z'))).length = 130 ∧
    parseSignatureToCompact (String.mk (List.replicate 130 'z'))
      = .error "Cannot convert string to a BigInt" := by
  constructor
  · decide
  · rfl

/-! ## Order building and hashing (src/lib/order.ts) and claim C3 -/

/-- The order fields the SDK `LimitOrder` carries and `build()` returns;
numeric fields are uint256 values, addresses are hex strings. -/
structure LimitOrderData where
  salt : Nat
  maker : String
  receiver : String
  makerAsset : String
  takerAsset : String
  makingAmount : Nat
  takingAmount : Nat
  makerTraits : Nat
deriving DecidableEq

/-- Parameters of `createLimitOrder` (src/lib/order.ts). -/
structure OrderParams where
  makerAsset : String
  takerAsset : String
  makingAmount : Nat
  takingAmount : Nat
  maker : String
  receiver : Option String
deriving DecidableEq

/-- Shallow embedding of `createLimitOrder`: the SDK constructor packs the
parameters into the order record; the SDK-generated salt and the
expiration/nonce-derived maker traits (randomness and clock owned by the
external SDK) are passed in explicitly. -/
def createLimitOrder (params : OrderParams) (salt makerTraits : Nat) : LimitOrderData :=
  { salt := salt
    maker := params.maker
    receiver := params.receiver.getD params.maker
    makerAsset := params.makerAsset
    takerAsset := params.takerAsset
    makingAmount := params.makingAmount
    takingAmount := params.takingAmount
    makerTraits := makerTraits }

/-- Shallow embedding of `computeOrderHash` (src/lib/order.ts): the salt
rendered as a 0x-prefixed hex string left-padded to 64 digits — not a hash of
the order fields. -/
def computeOrderHash (order : LimitOrderData) : String :=
  String.mk ('0' :: 'x' :: padStart (natToHex order.salt) 64 '0')

/-- Result of `generateSignedOrder`: the order, its signature, the derived
order hash, and the built order data. -/
structure SignedOrder where
  order : LimitOrderData
  signature : String
  orderHash : String
  orderData : LimitOrderData
deriving DecidableEq

/-- Shallow embedding of `generateSignedOrder` (src/lib/order.ts): build the
order, obtain the signature (produced externally by the wallet client and
passed in), derive the order hash, and build the order data (the SDK `build()`
returns the order fields unchanged). -/
def generateSignedOrder (params : OrderParams) (salt makerTraits : Nat)
    (signature : String) : SignedOrder :=
  let order := createLimitOrder params salt makerTraits
  { order := order
    signature := signature
    orderHash := computeOrderHash order
    orderData := order }

/-- The string-rendered order fields of the emitted order JSON. -/
structure OrderFieldsOut where
  salt : String
  maker : String
  receiver : String
  makerAsset : String
  takerAsset : String
  makingAmount : String
  takingAmount : String
  makerTraits : String
deriving DecidableEq

/-- The emitted order JSON record (`OrderOutput` in src/lib/order.ts). -/
structure OrderOutput where
  orderHash : String
  signature : String
  order : OrderFieldsOut
deriving DecidableEq

/-- Shallow embedding of `formatOrderOutput` (src/lib/order.ts): decimal-string
renderings of the numeric fields, addresses carried verbatim. -/
def formatOrderOutput (signedOrder : SignedOrder) : OrderOutput :=
  { orderHash := signedOrder.orderHash
    signature := signedOrder.signature
    order :=
      { salt := String.mk (natToDec signedOrder.orderData.salt)
        maker := signedOrder.orderData.maker
        receiver := signedOrder.orderData.receiver
        makerAsset := signedOrder.orderData.makerAsset
        takerAsset := signedOrder.orderData.takerAsset
        makingAmount := String.mk (natToDec signedOrder.orderData.makingAmount)
        takingAmount := String.mk (natToDec signedOrder.orderData.takingAmount)
        makerTraits := String.mk (natToDec signedOrder.orderData.makerTraits) } }

/-- C3: computeOrderHash renders the salt as a 0x-prefixed zero-padded
64-hex-digit string, every generateSignedOrder result carries exactly that
string as its orderHash (as does the emitted order JSON), the value depends on
no order field but the salt, and for salts below 2^256 the rendering is 66
characters long and decodes back to the salt. -/
theorem c3_order_hash_is_salt (params : OrderParams) (salt makerTraits : Nat)
    (signature : String) (order : LimitOrderData) (hsalt : order.salt = salt) :
    computeOrderHash order = String.mk ('0' :: 'x' :: padStart (natToHex salt) 64 '0') ∧
    (generateSignedOrder params salt makerTraits signature).orderHash
      = String.mk ('0' :: 'x' :: padStart (natToHex salt) 64 '0') ∧
    (formatOrderOutput (generateSignedOrder params salt makerTraits signature)).orderHash
      = String.mk ('0' :: 'x' :: padStart (natToHex salt) 64 '0') ∧
    computeOrderHash order
      = computeOrderHash (createLimitOrder params salt makerTraits) ∧
    (salt < 2 ^ 256 →
      (computeOrderHash order).toList.length = 66 ∧
      hexVal ((computeOrderHash order).toList.drop 2) = salt) := by
  have hc : computeOrderHash order
      = String.mk ('0' :: 'x' :: padStart (natToHex salt) 64 '0') := by
    unfold computeOrderHash
    rw [hsalt]
  refine ⟨hc, rfl, rfl, by rw [hc]; rfl, ?_⟩
  intro hlt
  constructor
  · rw [hc]
    show ('0' :: 'x' :: padStart (natToHex salt) 64 '0').length = 66
    have hlen : (natToHex salt).length ≤ 64 := by
      apply natToHex_length_le salt 64 _ (by omega)
      calc salt < 2 ^ 256 := hlt
        _ = 16 ^ 64 := by norm_num
    simp [padStart, List.length_append, List.length_replicate]
    omega
  · rw [hc]
    show hexVal (padStart (natToHex salt) 64 '0') = salt
    rw [hexVal_padStart_zero, hexVal_natToHex]

/-- Witness for C3 at salt 7: the order hash is the padded hex salt and
decodes back to 7. -/
theorem c3_order_hash_is_salt_witness :
    computeOrderHash (createLimitOrder
        { makerAsset := "0xa", takerAsset := "0xb", makingAmount := 5,
          takingAmount := 9, maker := "0xm", receiver := none } 7 3)
      = String.mk ('0' :: 'x' :: padStart (natToHex 7) 64 '0') ∧
    hexVal ((computeOrderHash (createLimitOrder
        { makerAsset := "0xa", takerAsset := "0xb", makingAmount := 5,
          takingAmount := 9, maker := "0xm", receiver := none } 7 3)).toList.drop 2) = 7 := by
  have h := c3_order_hash_is_salt
    { makerAsset := "0xa", takerAsset := "0xb", makingAmount := 5,
      takingAmount := 9, maker := "0xm", receiver := none } 7 3 "0xsig"
    (createLimitOrder
      { makerAsset := "0xa", takerAsset := "0xb", makingAmount := 5,
        takingAmount := 9, maker := "0xm", receiver := none } 7 3) rfl
  exact ⟨h.1, (h.2.2.2.2 (by norm_num)).2⟩

/-! ## Balance, allowance and approval (src/lib/blockchain.ts), claims C5-C7 -/

/-- The viem `maxUint256` constant. -/
def maxUint256 : Nat := 2 ^ 256 - 1

/-- On-chain state visible to the scripts for one token and owner: the owner's
balance, the limit-order-protocol contract's allowance, and the hash the next
submitted transaction would get. -/
structure Chain where
  balance : Nat
  allowance : Nat
  nextTxHash : String
deriving DecidableEq

/-- Externally visible steps a script run performs, in order. -/
inductive ChainAction where
  | approve (amount : Nat)
  | waitReceipt
  | sign
  | sendTx (gas : Nat)
deriving DecidableEq

/-- Shallow embedding of `getTokenBalance`: the ERC-20 `balanceOf` read. -/
def getTokenBalance (c : Chain) : Nat := c.balance

/-- Shallow embedding of `getTokenAllowance`: the ERC-20 `allowance` read for
the limit-order-protocol spender. -/
def getTokenAllowance (c : Chain) : Nat := c.allowance

/-- Result record of `validateSufficientBalance`. -/
structure BalanceCheck where
  sufficient : Bool
  balance : Nat
deriving DecidableEq

/-- Shallow embedding of `validateSufficientBalance` (src/lib/blockchain.ts):
reads the balance and compares it with the required amount. -/
def validateSufficientBalance (c : Chain) (requiredAmount : Nat) : BalanceCheck :=
  { sufficient := decide (getTokenBalance c ≥ requiredAmount)
    balance := getTokenBalance c }

/-- Shallow embedding of `approveToken` (src/lib/blockchain.ts): submits an
ERC-20 approve for `amount` — defaulting to `maxUint256` exactly as in the
source — waits for the receipt and returns the transaction hash.  The
allowance update is the standard ERC-20 `approve` effect (modelled from the
spec's glossary: the allowance is the amount the owner has authorized). -/
def approveToken (c : Chain) (amount : Nat := maxUint256) :
    String × Chain × List ChainAction :=
  (c.nextTxHash, { c with allowance := amount },
    [ChainAction.approve amount, ChainAction.waitReceipt])

/-- Result record of `ensureTokenApproval`. -/
structure ApprovalResult where
  approved : Bool
  txHash : Option String
deriving DecidableEq

/-- Shallow embedding of `ensureTokenApproval` (src/lib/blockchain.ts): read
the current allowance of the limit-order-protocol contract; if it already
covers the required amount return approved with no transaction, otherwise call
`approveToken` (with its default amount) and return its transaction hash. -/
def ensureTokenApproval (c : Chain) (requiredAmount : Nat) :
    ApprovalResult × Chain × List ChainAction :=
  if getTokenAllowance c ≥ requiredAmount then
    ({ approved := true, txHash := none }, c, [])
  else
    let r := approveToken c
    ({ approved := true, txHash := some r.1 }, r.2.1, r.2.2)

/-- C6: ensureTokenApproval submits an approval transaction exactly when the
current allowance is strictly below the required amount; with sufficient
allowance it returns approved with no transaction hash and performs nothing,
otherwise it submits the approval, awaits the receipt, and returns the hash. -/
theorem c6_ensure_approval_iff (c : Chain) (requiredAmount : Nat) :
    ((∃ a, ChainAction.approve a ∈ (ensureTokenApproval c requiredAmount).2.2) ↔
      c.allowance < requiredAmount) ∧
    (c.allowance ≥ requiredAmount →
      ensureTokenApproval c requiredAmount = (⟨true, none⟩, c, [])) ∧
    (c.allowance < requiredAmount →
      ensureTokenApproval c requiredAmount
        = (⟨true, some c.nextTxHash⟩, { c with allowance := maxUint256 },
            [ChainAction.approve maxUint256, ChainAction.waitReceipt])) := by
  unfold ensureTokenApproval getTokenAllowance approveToken
  by_cases h : c.allowance ≥ requiredAmount
  · rw [if_pos h]
    refine ⟨?_, fun _ => rfl, fun hlt => by omega⟩
    simp
    omega
  · rw [if_neg h]
    refine ⟨?_, fun hge => by omega, fun _ => rfl⟩
    constructor
    · intro _; omega
    · intro _
      exact ⟨maxUint256, by simp⟩

/-- Witness for C6: allowance 3 with requirement 4 submits the approval and
returns the pending hash; allowance 5 with requirement 4 performs nothing. -/
theorem c6_ensure_approval_iff_witness :
    ensureTokenApproval ⟨10, 3, "0xfeed"⟩ 4
      = (⟨true, some "0xfeed"⟩, ⟨10, maxUint256, "0xfeed"⟩,
          [ChainAction.approve maxUint256, ChainAction.waitReceipt]) ∧
    ensureTokenApproval ⟨10, 5, "0xfeed"⟩ 4 = (⟨true, none⟩, ⟨10, 5, "0xfeed"⟩, []) := by
  constructor
  · exact (c6_ensure_approval_iff ⟨10, 3, "0xfeed"⟩ 4).2.2 (by decide)
  · exact (c6_ensure_approval_iff ⟨10, 5, "0xfeed"⟩ 4).2.1 (by decide)

/-- C7: every approval ensureTokenApproval submits is for maxUint256 (the
approveToken default — ensureTokenApproval passes no amount), and once an
approval has been submitted the resulting allowance is maxUint256, so any
later call with any representable (uint256) required amount submits no further
approval transaction. -/
theorem c7_unlimited_approval (c : Chain) (requiredAmount : Nat) :
    (∀ a, ChainAction.approve a ∈ (ensureTokenApproval c requiredAmount).2.2 →
      a = maxUint256) ∧
    ((ensureTokenApproval c requiredAmount).1.txHash.isSome →
      (ensureTokenApproval c requiredAmount).2.1.allowance = maxUint256 ∧
      ∀ requiredAmount2 : Nat, requiredAmount2 ≤ maxUint256 →
        (ensureTokenApproval (ensureTokenApproval c requiredAmount).2.1
          requiredAmount2).2.2 = [] ∧
        (ensureTokenApproval (ensureTokenApproval c requiredAmount).2.1
          requiredAmount2).1.txHash = none) := by
  unfold ensureTokenApproval getTokenAllowance approveToken
  by_cases h : c.allowance ≥ requiredAmount
  · rw [if_pos h]
    constructor
    · intro a ha
      simp at ha
    · intro hsome
      simp at hsome
  · rw [if_neg h]
    constructor
    · intro a ha
      simp at ha
      omega
    · intro _
      refine ⟨rfl, ?_⟩
      intro r2 hr2
      rw [if_pos (by simpa using hr2)]
      exact ⟨rfl, rfl⟩

/-- Witness for C7: after an approval from allowance 0, a second call with the
full maxUint256 requirement performs nothing. -/
theorem c7_unlimited_approval_witness :
    (ensureTokenApproval (ensureTokenApproval ⟨10, 0, "0xh"⟩ 4).2.1 maxUint256).2.2 = []
      ∧ (ensureTokenApproval (ensureTokenApproval ⟨10, 0, "0xh"⟩ 4).2.1
          maxUint256).1.txHash = none := by
  have h := (c7_unlimited_approval ⟨10, 0, "0xh"⟩ 4).2 (by decide)
  exact h.2 maxUint256 (by omega)

/-! ## Quoting (src/lib/quote.ts) and order generation, claims C5 and C9 -/

/-- A quote: input amount in maker-token base units, output amount in
taker-token base units (the static token-info and display-rate fields, which
are only logged, are omitted). -/
structure QuoteResult where
  inputAmount : Nat
  outputAmount : Nat
deriving DecidableEq

/-- Shallow embedding of `getQuote` with the hardcoded-rate
`fetchQuoteFromApi` (src/lib/quote.ts): 1 USDC = 5 BRLA, scaled from 6 to 18
decimals, so the output is `input * 5 * 10 ^ 12`. -/
def getQuote (inputAmountRaw : Nat) : QuoteResult :=
  { inputAmount := inputAmountRaw
    outputAmount := inputAmountRaw * 5 * (10 ^ 12) }

/-- Modelled from the spec: the external viem `parseUnits(amountStr, decimals)`
used by `generateOrder` — a plain decimal string with an optional fractional
part no longer than `decimals`, scaled by `10 ^ decimals`; anything else is
rejected (the library throws). -/
def parseUnits (s : String) (decimals : Nat) : Option Nat :=
  let intPart := s.toList.takeWhile (fun c => !(c == '.'))
  let rest := s.toList.dropWhile (fun c => !(c == '.'))
  let frac := rest.drop 1
  if intPart ≠ [] ∧ intPart.all isDecDigit ∧ frac.all isDecDigit
      ∧ (rest = [] ∨ frac ≠ []) ∧ frac.length ≤ decimals then
    some (decVal intPart * 10 ^ decimals + decVal frac * 10 ^ (decimals - frac.length))
  else none

/-- USDC token address on Polygon (src/config.ts). -/
def USDC_ADDRESS : String := "0x3c499c542cEF5E3811e1192ce70d8cC03d5c3359"

/-- BRLA token address on Polygon (src/config.ts). -/
def BRLA_ADDRESS : String := "0xE6A537a407488807F0bbeb0038B79004f19DDDFb"

/-- Environment of one generateOrder run: the chain state for the maker's USDC,
and the SDK/wallet-owned data (salt, maker traits, signature, maker address)
passed in explicitly. -/
structure GenerateOrderEnv where
  chain : Chain
  salt : Nat
  makerTraits : Nat
  signature : String
  makerAddress : String
deriving DecidableEq

/-- Shallow embedding of `generateOrder` (src/lib/generate-order-lib, USDC to
BRLA variant): parse the amount, reject zero, quote, check the maker balance
(halting with the insufficient-balance error), ensure approval unless skipped,
then build, sign and serialize the order.  The returned action list records
the approval steps and the signing, in order. -/
def generateOrder (quoteFn : Nat → QuoteResult) (env : GenerateOrderEnv)
    (amountStr : String) (skipApproval : Bool) :
    Except String (OrderOutput × QuoteResult) × List ChainAction :=
  match parseUnits amountStr 6 with
  | none => (.error "Invalid decimal amount", [])
  | some makingAmountRaw =>
    if makingAmountRaw = 0 then (.error "Amount must be greater than zero.", [])
    else if (validateSufficientBalance env.chain
        (quoteFn makingAmountRaw).inputAmount).sufficient = false then
      (.error ("Insufficient USDC balance. Required: "
        ++ formatTokenAmount (quoteFn makingAmountRaw).inputAmount 6 (some "USDC")
        ++ ", Available: "
        ++ formatTokenAmount (validateSufficientBalance env.chain
            (quoteFn makingAmountRaw).inputAmount).balance 6 (some "USDC")), [])
    else
      (.ok (formatOrderOutput (generateSignedOrder
          { makerAsset := USDC_ADDRESS, takerAsset := BRLA_ADDRESS,
            makingAmount := (quoteFn makingAmountRaw).inputAmount,
            takingAmount := (quoteFn makingAmountRaw).outputAmount,
            maker := env.makerAddress, receiver := none }
          env.salt env.makerTraits env.signature), quoteFn makingAmountRaw),
        (if skipApproval then [] else (ensureTokenApproval env.chain
            (quoteFn makingAmountRaw).inputAmount).2.2) ++ [ChainAction.sign])

/-- C5: validateSufficientBalance reports sufficient exactly when the balance
covers the required amount, and a generateOrder run whose balance is below the
quoted making amount fails with the insufficient-balance error (reporting
required and available amounts) and performs neither an approval nor signing. -/
theorem c5_insufficient_balance_halts (c : Chain) (requiredAmount : Nat)
    (quoteFn : Nat → QuoteResult) (env : GenerateOrderEnv) (amountStr : String)
    (skipApproval : Bool) (raw : Nat)
    (hparse : parseUnits amountStr 6 = some raw) (hraw : raw ≠ 0)
    (hbal : env.chain.balance < (quoteFn raw).inputAmount) :
    ((validateSufficientBalance c requiredAmount).sufficient = true ↔
      requiredAmount ≤ c.balance) ∧
    generateOrder quoteFn env amountStr skipApproval
      = (.error ("Insufficient USDC balance. Required: "
          ++ formatTokenAmount (quoteFn raw).inputAmount 6 (some "USDC")
          ++ ", Available: "
          ++ formatTokenAmount env.chain.balance 6 (some "USDC")), []) := by
  constructor
  · unfold validateSufficientBalance getTokenBalance
    simp
  · have hsuff : (validateSufficientBalance env.chain
        (quoteFn raw).inputAmount).sufficient = false := by
      unfold validateSufficientBalance getTokenBalance
      simp
      omega
    simp only [generateOrder, hparse]
    rw [if_neg hraw, if_pos hsuff]
    rfl

/-- Witness for C5: with balance 3 against a required amount of 1000000 the
run reports the formatted required and available amounts and does nothing. -/
theorem c5_insufficient_balance_halts_witness :
    generateOrder getQuote ⟨⟨3, 0, "0xh"⟩, 1, 2, "0xs", "0xm"⟩ "1" false
      = (.error "Insufficient USDC balance. Required: 1 USDC, Available: 0.000003 USDC",
          []) := by
  have h := (c5_insufficient_balance_halts ⟨3, 0, "0xh"⟩ 1 getQuote
    ⟨⟨3, 0, "0xh"⟩, 1, 2, "0xs", "0xm"⟩ "1" false 1000000
    (by rfl) (by decide) (by decide)).2
  rw [h]
  rfl

/-- C9: the hardcoded-rate quote returns the input amount and exactly five
BRLA base units times 10^12 per USDC base unit (so 100 USDC quotes to 5*10^20
BRLA wei), and the generated order's making and taking amounts are the decimal
renderings of the quote's input and output amounts. -/
theorem c9_quote_and_order_amounts (a raw : Nat) (env : GenerateOrderEnv)
    (amountStr : String) (out : OrderOutput) (q : QuoteResult)
    (hparse : parseUnits amountStr 6 = some raw) (hraw : raw ≠ 0)
    (hbal : raw ≤ env.chain.balance)
    (hgen : generateOrder getQuote env amountStr true
      = (.ok (out, q), [ChainAction.sign])) :
    getQuote a = ⟨a, a * 5 * 10 ^ 12⟩ ∧
    (getQuote 100000000).outputAmount = 5 * 10 ^ 20 ∧
    q = ⟨raw, raw * 5 * 10 ^ 12⟩ ∧
    out.order.makingAmount = String.mk (natToDec q.inputAmount) ∧
    out.order.takingAmount = String.mk (natToDec q.outputAmount) := by
  have hsuff : ¬ ((validateSufficientBalance env.chain
      (getQuote raw).inputAmount).sufficient = false) := by
    unfold validateSufficientBalance getTokenBalance getQuote
    simp
    exact hbal
  have hrun : generateOrder getQuote env amountStr true
      = (.ok (formatOrderOutput (generateSignedOrder
          { makerAsset := USDC_ADDRESS, takerAsset := BRLA_ADDRESS,
            makingAmount := (getQuote raw).inputAmount,
            takingAmount := (getQuote raw).outputAmount,
            maker := env.makerAddress, receiver := none }
          env.salt env.makerTraits env.signature), getQuote raw),
        [ChainAction.sign]) := by
    simp only [generateOrder, hparse]
    rw [if_neg hraw, if_neg hsuff]
    rfl
  rw [hgen] at hrun
  simp only [Prod.mk.injEq, Except.ok.injEq] at hrun
  obtain ⟨⟨hout, hq⟩, -⟩ := hrun
  subst hout
  subst hq
  exact ⟨rfl, by norm_num [getQuote], rfl, rfl, rfl⟩

/-- Witness for C9: quoting 100 USDC produces the documented amounts and the
serialized order carries them as decimal strings. -/
theorem c9_quote_and_order_amounts_witness :
    (formatOrderOutput (generateSignedOrder
      { makerAsset := USDC_ADDRESS, takerAsset := BRLA_ADDRESS,
        makingAmount := 100000000, takingAmount := 500000000000000000000,
        maker := "0xm", receiver := none } 1 2 "0xs")).order.makingAmount
      = "100000000" ∧
    (formatOrderOutput (generateSignedOrder
      { makerAsset := USDC_ADDRESS, takerAsset := BRLA_ADDRESS,
        makingAmount := 100000000, takingAmount := 500000000000000000000,
        maker := "0xm", receiver := none } 1 2 "0xs")).order.takingAmount
      = "500000000000000000000" ∧
    (getQuote 100000000).outputAmount = 5 * 10 ^ 20 := by
  have h := c9_quote_and_order_amounts 1 100000000
    ⟨⟨1000000000, 0, "0xh"⟩, 1, 2, "0xs", "0xm"⟩ "100"
    (formatOrderOutput (generateSignedOrder
      { makerAsset := USDC_ADDRESS, takerAsset := BRLA_ADDRESS,
        makingAmount := 100000000, takingAmount := 500000000000000000000,
        maker := "0xm", receiver := none } 1 2 "0xs"))
    ⟨100000000, 500000000000000000000⟩
    (by rfl) (by decide) (by decide) (by rfl)
  refine ⟨?_, ?_, h.2.1⟩
  · rw [h.2.2.2.1]
    decide
  · rw [h.2.2.2.2]
    decide

/-! ## Token lookup (src/config.ts) and the fill execution path (src/test/fill.ts), claim C10 -/

/-- A static token table entry (src/config.ts). -/
structure TokenInfo where
  address : String
  decimals : Nat
  symbol : String
deriving DecidableEq

/-- The hardcoded Polygon token table from src/config.ts. -/
def TOKENS : List TokenInfo :=
  [{ address := "0x3c499c542cEF5E3811e1192ce70d8cC03d5c3359", decimals := 6, symbol := "USDC" },
   { address := "0xc2132D05D31c914a87C6611C10748AEb04B58e8F", decimals := 6, symbol := "USDT" },
   { address := "0xE6A537a407488807F0bbeb0038B79004f19DDDFb", decimals := 18, symbol := "BRLA" }]

/-- ASCII lowercasing of one character (JavaScript `toLowerCase` on the hex
address alphabet). -/
def toLowerAscii (c : Char) : Char :=
  if 'A' ≤ c ∧ c ≤ 'Z' then Char.ofNat (c.toNat + 32) else c

/-- Lowercase a string (model of `String.prototype.toLowerCase` on addresses). -/
def lowerStr (s : String) : String := String.mk (s.toList.map toLowerAscii)

/-- Shallow embedding of `getTokenByAddress` (src/config.ts):
case-insensitive address lookup over the token table. -/
def getTokenByAddress (address : String) : Option TokenInfo :=
  TOKENS.find? (fun token => lowerStr token.address == lowerStr address)

/-- The order struct built by `buildOrderStruct` (src/test/fill.ts): every
field converted to a uint256 via `BigInt`. -/
structure OrderStructN where
  salt : Nat
  maker : Nat
  receiver : Nat
  makerAsset : Nat
  takerAsset : Nat
  makingAmount : Nat
  takingAmount : Nat
  makerTraits : Nat
deriving DecidableEq

/-- Shallow embedding of `buildOrderStruct`: `BigInt` conversion of each order
field, failing (throwing) on a non-numeric string. -/
def buildOrderStruct (o : OrderFieldsOut) : Option OrderStructN := do
  let salt ← jsBigIntOfString o.salt
  let maker ← jsBigIntOfString o.maker
  let receiver ← jsBigIntOfString o.receiver
  let makerAsset ← jsBigIntOfString o.makerAsset
  let takerAsset ← jsBigIntOfString o.takerAsset
  let makingAmount ← jsBigIntOfString o.makingAmount
  let takingAmount ← jsBigIntOfString o.takingAmount
  let makerTraits ← jsBigIntOfString o.makerTraits
  pure { salt, maker, receiver, makerAsset, takerAsset, makingAmount,
         takingAmount, makerTraits }

/-- Model of the external viem `encodeFunctionData` for the `fillOrder` call:
an injective rendering of the arguments (the ABI byte encoding itself is
library-owned and irrelevant to the claims). -/
def encodeFillOrder (os : OrderStructN) (r vs : String) (amount takerTraits : Nat) :
    String :=
  "fillOrder(" ++ String.mk (natToDec os.salt) ++ "," ++ String.mk (natToDec os.maker)
    ++ "," ++ String.mk (natToDec os.receiver) ++ "," ++ String.mk (natToDec os.makerAsset)
    ++ "," ++ String.mk (natToDec os.takerAsset) ++ "," ++ String.mk (natToDec os.makingAmount)
    ++ "," ++ String.mk (natToDec os.takingAmount) ++ "," ++ String.mk (natToDec os.makerTraits)
    ++ "," ++ r ++ "," ++ vs ++ "," ++ String.mk (natToDec amount) ++ ","
    ++ String.mk (natToDec takerTraits) ++ ")"

/-- Shallow embedding of `buildFillOrderData` (src/test/fill.ts): build the
order struct, compact the signature, and encode the call; exceptions from
either step propagate. -/
def buildFillOrderData (order : OrderOutput) (takingAmount : Nat) :
    Except String String :=
  match buildOrderStruct order.order with
  | none => .error "Cannot convert string to a BigInt"
  | some os =>
    match parseSignatureToCompact order.signature with
    | .error e => .error e
    | .ok (r, vs) => .ok (encodeFillOrder os r vs takingAmount 0)

/-- Environment of one executeFill run: chain state for the taker token, the
node's gas estimate, the hash the fill transaction gets, and the status its
receipt reports. -/
structure FillEnv where
  chain : Chain
  gasEstimate : Nat
  fillTxHash : String
  receiptSuccess : Bool
deriving DecidableEq

/-- Result record of `executeFill`. -/
structure FillResult where
  success : Bool
  txHash : Option String
  error : Option String
deriving DecidableEq

/-- Shallow embedding of `executeFill` (src/test/fill.ts): read the taking
amount and taker asset, look the token up, check the taker balance, ensure
approval, build the fill calldata, estimate gas, send the transaction with gas
inflated by a tenth (integer division), await the receipt and report success
exactly when the receipt status is success.  Uncaught exceptions (BigInt or
signature parsing) surface as `Except.error`. -/
def executeFill (env : FillEnv) (order : OrderOutput) :
    Except String (FillResult × List ChainAction) :=
  match jsBigIntOfString order.order.takingAmount with
  | none => .error "Cannot convert string to a BigInt"
  | some takingAmount =>
  match jsBigIntOfString order.order.takerAsset with
  | none => .error "Cannot convert string to a BigInt"
  | some takerAssetNum =>
  match getTokenByAddress (String.mk ('0' :: 'x' :: padStart (natToHex takerAssetNum) 40 '0')) with
  | none =>
    .ok (FillResult.mk false none (some ("Unknown taker asset: "
      ++ String.mk ('0' :: 'x' :: padStart (natToHex takerAssetNum) 40 '0'))), [])
  | some takerToken =>
  if (validateSufficientBalance env.chain takingAmount).sufficient = false then
    .ok (FillResult.mk false none
      (some ("Insufficient " ++ takerToken.symbol ++ " balance")), [])
  else
  match buildFillOrderData order takingAmount with
  | .error e => .error e
  | .ok _fillData =>
    if env.receiptSuccess then
      .ok (FillResult.mk true (some env.fillTxHash) none,
        (ensureTokenApproval env.chain takingAmount).2.2
          ++ [ChainAction.sendTx (env.gasEstimate + env.gasEstimate / 10)])
    else
      .ok (FillResult.mk false (some env.fillTxHash) (some "Transaction reverted"),
        (ensureTokenApproval env.chain takingAmount).2.2
          ++ [ChainAction.sendTx (env.gasEstimate + env.gasEstimate / 10)])

theorem sendTx_notMem_ensureTokenApproval (c : Chain) (amt g : Nat) :
    ChainAction.sendTx g ∉ (ensureTokenApproval c amt).2.2 := by
  unfold ensureTokenApproval approveToken getTokenAllowance
  by_cases hal : c.allowance ≥ amt
  · rw [if_pos hal]; simp
  · rw [if_neg hal]; simp

/-- C10: on every run of executeFill that completes, any transaction sent
carries exactly the gas estimate plus its integer tenth, and when a
transaction was sent the result is success exactly when the receipt status is
success, carrying the transaction hash, with the "Transaction reverted" error
on failure. -/
theorem c10_gas_and_receipt (env : FillEnv) (order : OrderOutput)
    (res : FillResult) (acts : List ChainAction)
    (h : executeFill env order = .ok (res, acts)) :
    (∀ g, ChainAction.sendTx g ∈ acts → g = env.gasEstimate + env.gasEstimate / 10) ∧
    ((∃ g, ChainAction.sendTx g ∈ acts) →
      (res.success = true ↔ env.receiptSuccess = true) ∧
      res.txHash = some env.fillTxHash ∧
      (res.success = false → res.error = some "Transaction reverted")) := by
  unfold executeFill at h
  split at h
  · exact absurd h (by simp)
  · split at h
    · exact absurd h (by simp)
    · split at h
      · simp only [Except.ok.injEq, Prod.mk.injEq] at h
        obtain ⟨hres, hacts⟩ := h
        subst hres
        subst hacts
        refine ⟨fun g hg => absurd hg (by simp), ?_⟩
        rintro ⟨g, hg⟩
        simp at hg
      · split at h
        · simp only [Except.ok.injEq, Prod.mk.injEq] at h
          obtain ⟨hres, hacts⟩ := h
          subst hres
          subst hacts
          refine ⟨fun g hg => absurd hg (by simp), ?_⟩
          rintro ⟨g, hg⟩
          simp at hg
        · split at h
          · exact absurd h (by simp)
          · rename_i takingAmount takerAssetNum takerToken hsuff hbuild
            split at h
            · rename_i hrc
              simp only [Except.ok.injEq, Prod.mk.injEq] at h
              obtain ⟨hres, hacts⟩ := h
              subst hres
              subst hacts
              constructor
              · intro g hg
                rw [List.mem_append] at hg
                cases hg with
                | inl hg2 =>
                  exact absurd hg2 (sendTx_notMem_ensureTokenApproval _ _ g)
                | inr hg2 =>
                  simp at hg2
                  exact hg2
              · intro _
                refine ⟨?_, rfl, by simp⟩
                simp [hrc]
            · rename_i hrc
              simp only [Except.ok.injEq, Prod.mk.injEq] at h
              obtain ⟨hres, hacts⟩ := h
              subst hres
              subst hacts
              constructor
              · intro g hg
                rw [List.mem_append] at hg
                cases hg with
                | inl hg2 =>
                  exact absurd hg2 (sendTx_notMem_ensureTokenApproval _ _ g)
                | inr hg2 =>
                  simp at hg2
                  exact hg2
              · intro _
                refine ⟨?_, rfl, fun _ => rfl⟩
                simp
                cases hb : env.receiptSuccess with
                | true => exact absurd hb hrc
                | false => rfl

/-- Concrete order JSON for the C10 witness: a BRLA taking amount of 5 base
units and an all-zero (but well-formed) 65-byte signature. -/
def c10Order : OrderOutput :=
  { orderHash := "0xhash"
    signature := String.mk ('0' :: 'x' :: List.replicate 130 '0')
    order :=
      { salt := "1", maker := "0x1", receiver := "0x1",
        makerAsset := "0x3c499c542cEF5E3811e1192ce70d8cC03d5c3359",
        takerAsset := "0xE6A537a407488807F0bbeb0038B79004f19DDDFb",
        makingAmount := "100000000", takingAmount := "5", makerTraits := "0" } }

/-- Concrete environment for the C10 witness: balance 10, empty allowance, gas
estimate 100, successful receipt. -/
def c10Env : FillEnv :=
  { chain := { balance := 10, allowance := 0, nextTxHash := "0xa" }
    gasEstimate := 100
    fillTxHash := "0xt"
    receiptSuccess := true }

/-- Witness for C10: the concrete run sends with gas 110 = 100 + 100 / 10 and
succeeds together with its receipt. -/
theorem c10_gas_and_receipt_witness :
    110 = c10Env.gasEstimate + c10Env.gasEstimate / 10 ∧
    ((FillResult.mk true (some "0xt") none).success = true ↔
      c10Env.receiptSuccess = true) := by
  have h := c10_gas_and_receipt c10Env c10Order
    (FillResult.mk true (some "0xt") none)
    [ChainAction.approve maxUint256, ChainAction.waitReceipt, ChainAction.sendTx 110]
    (by rfl)
  refine ⟨h.1 110 (by simp), (h.2 ⟨110, by simp⟩).1⟩

/-! ## Keccak-256 and ABI error selectors, for the revert decoder (claim C8) -/

/-- Mask of a 64-bit lane. -/
def M64 : Nat := 2 ^ 64 - 1

/-- Rotate a 64-bit lane left by `n` (0 ≤ n < 64). -/
def rotl64 (x n : Nat) : Nat := ((x <<< n) ||| (x >>> (64 - n))) &&& M64

/-- The 5x5 keccak state of 64-bit lanes; `aXY` is the lane in column X, row Y. -/
structure KState where
  (a00 a10 a20 a30 a40 : Nat)
  (a01 a11 a21 a31 a41 : Nat)
  (a02 a12 a22 a32 a42 : Nat)
  (a03 a13 a23 a33 a43 : Nat)
  (a04 a14 a24 a34 a44 : Nat)

/-- One keccak-f[1600] round: theta, rho and pi (b[y][(2x+3y) mod 5] is the
rotated a[x][y]), chi, and iota with the round constant. -/
def keccakRound (s : KState) (rc : Nat) : KState :=
  let c0 := s.a00 ^^^ s.a01 ^^^ s.a02 ^^^ s.a03 ^^^ s.a04
  let c1 := s.a10 ^^^ s.a11 ^^^ s.a12 ^^^ s.a13 ^^^ s.a14
  let c2 := s.a20 ^^^ s.a21 ^^^ s.a22 ^^^ s.a23 ^^^ s.a24
  let c3 := s.a30 ^^^ s.a31 ^^^ s.a32 ^^^ s.a33 ^^^ s.a34
  let c4 := s.a40 ^^^ s.a41 ^^^ s.a42 ^^^ s.a43 ^^^ s.a44
  let d0 := c4 ^^^ rotl64 c1 1
  let d1 := c0 ^^^ rotl64 c2 1
  let d2 := c1 ^^^ rotl64 c3 1
  let d3 := c2 ^^^ rotl64 c4 1
  let d4 := c3 ^^^ rotl64 c0 1
  let b00 := rotl64 (s.a00 ^^^ d0) 0
  let b02 := rotl64 (s.a10 ^^^ d1) 1
  let b04 := rotl64 (s.a20 ^^^ d2) 62
  let b01 := rotl64 (s.a30 ^^^ d3) 28
  let b03 := rotl64 (s.a40 ^^^ d4) 27
  let b13 := rotl64 (s.a01 ^^^ d0) 36
  let b10 := rotl64 (s.a11 ^^^ d1) 44
  let b12 := rotl64 (s.a21 ^^^ d2) 6
  let b14 := rotl64 (s.a31 ^^^ d3) 55
  let b11 := rotl64 (s.a41 ^^^ d4) 20
  let b21 := rotl64 (s.a02 ^^^ d0) 3
  let b23 := rotl64 (s.a12 ^^^ d1) 10
  let b20 := rotl64 (s.a22 ^^^ d2) 43
  let b22 := rotl64 (s.a32 ^^^ d3) 25
  let b24 := rotl64 (s.a42 ^^^ d4) 39
  let b34 := rotl64 (s.a03 ^^^ d0) 41
  let b31 := rotl64 (s.a13 ^^^ d1) 45
  let b33 := rotl64 (s.a23 ^^^ d2) 15
  let b30 := rotl64 (s.a33 ^^^ d3) 21
  let b32 := rotl64 (s.a43 ^^^ d4) 8
  let b42 := rotl64 (s.a04 ^^^ d0) 18
  let b44 := rotl64 (s.a14 ^^^ d1) 2
  let b41 := rotl64 (s.a24 ^^^ d2) 61
  let b43 := rotl64 (s.a34 ^^^ d3) 56
  let b40 := rotl64 (s.a44 ^^^ d4) 14
  { a00 := (b00 ^^^ ((b10 ^^^ M64) &&& b20)) ^^^ rc
    a10 := b10 ^^^ ((b20 ^^^ M64) &&& b30)
    a20 := b20 ^^^ ((b30 ^^^ M64) &&& b40)
    a30 := b30 ^^^ ((b40 ^^^ M64) &&& b00)
    a40 := b40 ^^^ ((b00 ^^^ M64) &&& b10)
    a01 := b01 ^^^ ((b11 ^^^ M64) &&& b21)
    a11 := b11 ^^^ ((b21 ^^^ M64) &&& b31)
    a21 := b21 ^^^ ((b31 ^^^ M64) &&& b41)
    a31 := b31 ^^^ ((b41 ^^^ M64) &&& b01)
    a41 := b41 ^^^ ((b01 ^^^ M64) &&& b11)
    a02 := b02 ^^^ ((b12 ^^^ M64) &&& b22)
    a12 := b12 ^^^ ((b22 ^^^ M64) &&& b32)
    a22 := b22 ^^^ ((b32 ^^^ M64) &&& b42)
    a32 := b32 ^^^ ((b42 ^^^ M64) &&& b02)
    a42 := b42 ^^^ ((b02 ^^^ M64) &&& b12)
    a03 := b03 ^^^ ((b13 ^^^ M64) &&& b23)
    a13 := b13 ^^^ ((b23 ^^^ M64) &&& b33)
    a23 := b23 ^^^ ((b33 ^^^ M64) &&& b43)
    a33 := b33 ^^^ ((b43 ^^^ M64) &&& b03)
    a43 := b43 ^^^ ((b03 ^^^ M64) &&& b13)
    a04 := b04 ^^^ ((b14 ^^^ M64) &&& b24)
    a14 := b14 ^^^ ((b24 ^^^ M64) &&& b34)
    a24 := b24 ^^^ ((b34 ^^^ M64) &&& b44)
    a34 := b34 ^^^ ((b44 ^^^ M64) &&& b04)
    a44 := b44 ^^^ ((b04 ^^^ M64) &&& b14) }

/-- The 24 keccak-f[1600] round constants. -/
def keccakRC : List Nat :=
  [0x0000000000000001, 0x0000000000008082, 0x800000000000808a, 0x8000000080008000,
   0x000000000000808b, 0x0000000080000001, 0x8000000080008081, 0x8000000000008009,
   0x000000000000008a, 0x0000000000000088, 0x0000000080008009, 0x000000008000000a,
   0x000000008000808b, 0x800000000000008b, 0x8000000000008089, 0x8000000000008003,
   0x8000000000008002, 0x8000000000000080, 0x000000000000800a, 0x800000008000000a,
   0x8000000080008081, 0x8000000000008080, 0x0000000080000001, 0x8000000080008008]

/-- The keccak-f[1600] permutation. -/
def keccakF (s : KState) : KState := keccakRC.foldl keccakRound s

/-- Pack bytes into 64-bit little-endian lanes. -/
def lanesOfBytes (bytes : List Nat) : List Nat :=
  match bytes with
  | b0 :: b1 :: b2 :: b3 :: b4 :: b5 :: b6 :: b7 :: rest =>
    (b0 + b1 <<< 8 + b2 <<< 16 + b3 <<< 24 + b4 <<< 32 + b5 <<< 40 + b6 <<< 48 + b7 <<< 56)
      :: lanesOfBytes rest
  | _ => []

/-- Original keccak pad10*1 at rate 136 bytes (0x01 start marker, 0x80 end). -/
def padKeccak (msg : List Nat) : List Nat :=
  if 136 - (msg.length % 136) = 1 then msg ++ [0x81]
  else msg ++ [0x01] ++ List.replicate (136 - (msg.length % 136) - 2) 0 ++ [0x80]

/-- Absorb a message of at most one rate block (all inputs hashed here are
short error signatures) and run the permutation. -/
def absorbOne (msg : List Nat) : KState :=
  match lanesOfBytes (padKeccak msg) with
  | [l0, l1, l2, l3, l4, l5, l6, l7, l8, l9, l10, l11, l12, l13, l14, l15, l16] =>
    keccakF
      { a00 := l0, a10 := l1, a20 := l2, a30 := l3, a40 := l4
        a01 := l5, a11 := l6, a21 := l7, a31 := l8, a41 := l9
        a02 := l10, a12 := l11, a22 := l12, a32 := l13, a42 := l14
        a03 := l15, a13 := l16, a23 := 0, a33 := 0, a43 := 0
        a04 := 0, a14 := 0, a24 := 0, a34 := 0, a44 := 0 }
  | _ =>
    keccakF
      { a00 := 0, a10 := 0, a20 := 0, a30 := 0, a40 := 0
        a01 := 0, a11 := 0, a21 := 0, a31 := 0, a41 := 0
        a02 := 0, a12 := 0, a22 := 0, a32 := 0, a42 := 0
        a03 := 0, a13 := 0, a23 := 0, a33 := 0, a43 := 0
        a04 := 0, a14 := 0, a24 := 0, a34 := 0, a44 := 0 }

/-- The 8 little-endian bytes of a 64-bit lane. -/
def laneBytes (l : Nat) : List Nat :=
  [l &&& 0xff, (l >>> 8) &&& 0xff, (l >>> 16) &&& 0xff, (l >>> 24) &&& 0xff,
   (l >>> 32) &&& 0xff, (l >>> 40) &&& 0xff, (l >>> 48) &&& 0xff, (l >>> 56) &&& 0xff]

/-- Keccak-256 of a byte message (32 output bytes); this is the hash Ethereum
and the ABI use for selectors, with the original keccak padding. -/
def keccak256 (msg : List Nat) : List Nat :=
  laneBytes (absorbOne msg).a00 ++ laneBytes (absorbOne msg).a10
    ++ laneBytes (absorbOne msg).a20 ++ laneBytes (absorbOne msg).a30

/-- Two lowercase hex characters of one byte. -/
def hexOfByte (b : Nat) : List Char := [Nat.digitChar (b / 16), Nat.digitChar (b % 16)]

/-- Bytes of an ASCII string (error signatures are plain ASCII). -/
def strBytes (s : String) : List Nat := s.toList.map Char.toNat

/-- The 4-byte ABI selector of an error signature, as the 0x-prefixed 8-hex
string viem compares revert data against: the first four bytes of the
keccak-256 of the signature text. -/
def errorSelector (sig : String) : String :=
  match keccak256 (strBytes sig) with
  | b0 :: b1 :: b2 :: b3 :: _ =>
    String.mk ('0' :: 'x' :: (hexOfByte b0 ++ hexOfByte b1 ++ hexOfByte b2 ++ hexOfByte b3))
  | _ => "0x"

/-- The custom errors of the limit-order-protocol ABI (src/lib/abi.ts), all
with zero arguments: display name and solidity signature. -/
def LIMIT_ORDER_PROTOCOL_ERRORS : List (String × String) :=
  [("BadSignature", "BadSignature()"),
   ("OrderExpired", "OrderExpired()"),
   ("InvalidatedOrder", "InvalidatedOrder()"),
   ("TakingAmountExceeded", "TakingAmountExceeded()"),
   ("MakingAmountTooLow", "MakingAmountTooLow()"),
   ("PrivateOrder", "PrivateOrder()"),
   ("PredicateIsNotTrue", "PredicateIsNotTrue()"),
   ("TransferFromMakerToTakerFailed", "TransferFromMakerToTakerFailed()"),
   ("TransferFromTakerToMakerFailed", "TransferFromTakerToMakerFailed()")]

/-- Argument shape of an ABI error entry the decoder knows. -/
inductive AbiArgKind where
  | zeroArgs
  | uintArg
  | strArg
deriving DecidableEq

/-- One entry of the error list the external decoder searches. -/
structure ViemAbiError where
  name : String
  sig : String
  kind : AbiArgKind
deriving DecidableEq

/-- The error list viem's decodeErrorResult searches: the ABI's own errors in
order, then the built-in solidity Error(string) and Panic(uint256). -/
def viemErrorAbi : List ViemAbiError :=
  (LIMIT_ORDER_PROTOCOL_ERRORS.map (fun e => ViemAbiError.mk e.1 e.2 AbiArgKind.zeroArgs))
    ++ [ViemAbiError.mk "Error" "Error(string)" AbiArgKind.strArg,
        ViemAbiError.mk "Panic" "Panic(uint256)" AbiArgKind.uintArg]

/-- Read one 32-byte big-endian word (64 hex chars) from a payload tail,
failing when fewer than 64 valid hex characters remain. -/
def readWord (l : List Char) : Option Nat :=
  if (l.take 64).length = 64 ∧ (l.take 64).all isHexDigit then some (hexVal (l.take 64))
  else none

/-- ASCII characters of a run of hex byte pairs. -/
def bytePairsToChars : List Char → List Char
  | c1 :: c2 :: rest => Char.ofNat (hexVal [c1, c2]) :: bytePairsToChars rest
  | _ => []

/-- Decode one dynamic solidity `string` argument from the payload after the
selector: a head word holding the byte offset of the length word, the length,
then that many bytes of text. -/
def decodeAbiString (l : List Char) : Option String := do
  let off ← readWord l
  let slen ← readWord (l.drop (2 * off))
  let body := (l.drop (2 * off + 64)).take (2 * slen)
  if body.length = 2 * slen ∧ body.all isHexDigit then
    some (String.mk (bytePairsToChars body))
  else none

/-- Model of the external viem `decodeErrorResult` against the
limit-order-protocol ABI: reject empty revert data, take the 4-byte selector
(the first 10 characters of the 0x payload), find the first matching error —
the ABI's own errors, then the built-in Error(string)/Panic(uint256) viem
always appends — and decode its arguments; `none` models a thrown decode
error, and arguments are returned as their display strings. -/
def decodeErrorResult (data : String) : Option (String × List String) :=
  if data = "0x" then none
  else
    match viemErrorAbi.find? (fun e => errorSelector e.sig == String.mk (data.toList.take 10)) with
    | none => none
    | some e =>
      match e.kind with
      | AbiArgKind.zeroArgs => some (e.name, [])
      | AbiArgKind.uintArg =>
        match readWord (data.toList.drop 10) with
        | none => none
        | some v => some (e.name, [String.mk (natToDec v)])
      | AbiArgKind.strArg =>
        match decodeAbiString (data.toList.drop 10) with
        | none => none
        | some s => some (e.name, [s])

/-- Shallow embedding of `decodeRevertError` (src/test/fill.ts): no-data
message for missing or empty payloads, `Name(args)` or `Name()` when the
decoder succeeds, and the raw selector fallback when it throws. -/
def decodeRevertError (errorData : Option String) : String :=
  match errorData with
  | none => "Unknown error (no revert data)"
  | some d =>
    if d = "" ∨ d = "0x" then "Unknown error (no revert data)"
    else
      match decodeErrorResult d with
      | some (name, args) =>
        if args.length > 0 then
          name ++ "(" ++ String.intercalate ", " args ++ ")"
        else name ++ "()"
      | none => "Unknown error with selector " ++ String.mk (d.toList.take 10)

theorem errorSelector_toList_length (sig : String) : (errorSelector sig).toList.length = 10 := rfl

theorem viemSelectors_values :
    viemErrorAbi.map (fun e => errorSelector e.sig)
      = ["0x5cd5d233", "0xc56873ba", "0xf71fbda2", "0x7f902a93", "0x481ea392",
         "0xd4dfdafe", "0xb6629c02", "0x70a03f48", "0x478a5205", "0x08c379a0",
         "0x4e487b71"] := by rfl

theorem viemSelectors_nodup :
    (viemErrorAbi.map (fun e => errorSelector e.sig)).Nodup := by
  rw [viemSelectors_values]
  decide

theorem find_first_by_key (f : ViemAbiError → String) :
    ∀ (l : List ViemAbiError) (e : ViemAbiError), (l.map f).Nodup → e ∈ l →
      l.find? (fun x => f x == f e) = some e := by
  intro l
  induction l with
  | nil => intro e _ he; simp at he
  | cons a t ih =>
    intro e hnd he
    rw [List.map_cons, List.nodup_cons] at hnd
    cases List.mem_cons.mp he with
    | inl heq =>
      subst heq
      rw [List.find?_cons_of_pos]
      simp
    | inr ht =>
      have hne : ¬ (f a = f e) := by
        intro hfa
        exact hnd.1 (hfa ▸ List.mem_map_of_mem f ht)
      rw [List.find?_cons_of_neg]
      · exact ih e hnd.2 ht
      · simp [hne]

/-- C8 (amended): a revert payload whose 4-byte selector is the selector of
one of the ABI's zero-argument errors decodes to exactly "ErrorName()"; a
payload whose selector matches none of the decoder's entries — the ABI's
errors and the built-in solidity Error(string)/Panic(uint256) that the
external decoder always also recognises — produces the fallback message, which
contains the raw selector (its own suffix). -/
theorem c8_decode_revert (d name sig : String) :
    ((name, sig) ∈ LIMIT_ORDER_PROTOCOL_ERRORS →
      String.mk (d.toList.take 10) = errorSelector sig →
      decodeRevertError (some d) = name ++ "()") ∧
    (10 ≤ d.toList.length →
      (∀ e ∈ viemErrorAbi, ¬ (errorSelector e.sig = String.mk (d.toList.take 10))) →
      decodeRevertError (some d)
        = "Unknown error with selector " ++ String.mk (d.toList.take 10) ∧
      (String.mk (d.toList.take 10)).toList
        <:+: ("Unknown error with selector " ++ String.mk (d.toList.take 10)).toList) := by
  constructor
  · intro hmem0 hsel
    have hlen : 10 ≤ d.toList.length := by
      have h1 : (d.toList.take 10).length = (errorSelector sig).toList.length :=
        congrArg (fun s : String => s.toList.length) hsel
      rw [errorSelector_toList_length, List.length_take] at h1
      omega
    have hne1 : ¬ (d = "") := by
      intro h0; subst h0; exact absurd hlen (by decide)
    have hne2 : ¬ (d = "0x") := by
      intro h0; subst h0; exact absurd hlen (by decide)
    have hmem : ViemAbiError.mk name sig AbiArgKind.zeroArgs ∈ viemErrorAbi := by
      unfold viemErrorAbi
      apply List.mem_append_left
      have h3 := List.mem_map_of_mem
        (fun e : String × String => ViemAbiError.mk e.1 e.2 AbiArgKind.zeroArgs) hmem0
      simpa using h3
    have hfind : viemErrorAbi.find?
        (fun x => errorSelector x.sig == errorSelector sig)
        = some (ViemAbiError.mk name sig AbiArgKind.zeroArgs) :=
      find_first_by_key (fun e => errorSelector e.sig) viemErrorAbi
        (ViemAbiError.mk name sig AbiArgKind.zeroArgs) viemSelectors_nodup hmem
    have hdec : decodeErrorResult d = some (name, []) := by
      unfold decodeErrorResult
      rw [if_neg hne2, hsel, hfind]
    simp only [decodeRevertError]
    rw [if_neg (by intro hor; cases hor with | inl h => exact hne1 h | inr h => exact hne2 h)]
    rw [hdec]
    rfl
  · intro hlen hnall
    have hne1 : ¬ (d = "") := by
      intro h0; subst h0; exact absurd hlen (by decide)
    have hne2 : ¬ (d = "0x") := by
      intro h0; subst h0; exact absurd hlen (by decide)
    have hfind : viemErrorAbi.find?
        (fun e => errorSelector e.sig == String.mk (d.toList.take 10)) = none := by
      rw [List.find?_eq_none]
      intro x hx
      simp
      exact hnall x hx
    have hdec : decodeErrorResult d = none := by
      unfold decodeErrorResult
      rw [if_neg hne2, hfind]
    constructor
    · simp only [decodeRevertError]
      rw [if_neg (by intro hor; cases hor with | inl h => exact hne1 h | inr h => exact hne2 h)]
      rw [hdec]
    · have hsplit : ("Unknown error with selector "
          ++ String.mk (d.toList.take 10)).toList
          = "Unknown error with selector ".toList ++ d.toList.take 10 := by
        rw [String.toList, String.data_append]
        rfl
      rw [hsplit]
      exact List.IsSuffix.isInfix (List.suffix_append _ _)

/-- Witness for C8: a payload carrying exactly the BadSignature() selector
decodes to "BadSignature()". -/
theorem c8_decode_revert_witness :
    decodeRevertError (some (errorSelector "BadSignature()")) = "BadSignature()" := by
  have h := (c8_decode_revert (errorSelector "BadSignature()")
    "BadSignature" "BadSignature()").1 (by decide) (by rfl)
  exact h.trans (by rfl)

/-- A well-formed Panic(uint256) revert payload with code 1. -/
def panicPayload : String :=
  String.mk ('0' :: 'x' :: ('4' :: 'e' :: '4' :: '8' :: '7' :: 'b' :: '7' :: '1'
    :: (List.replicate 63 '0' ++ ['1'])))

/-- Counterexample to C8 as stated: the Panic(uint256) payload's selector is
not in the ABI's known error list, yet the decoder returns "Panic(1)" — which
does not contain the raw selector — because the external decoder also
recognises the built-in solidity Error/Panic errors. -/
theorem c8_builtin_panic_counterexample :
    (LIMIT_ORDER_PROTOCOL_ERRORS.all
      (fun e => !(errorSelector e.2 == String.mk (panicPayload.toList.take 10)))) = true ∧
    decodeRevertError (some panicPayload) = "Panic(1)" ∧
    ¬ ((panicPayload.toList.take 10) <:+: ("Panic(1)".toList)) := by
  refine ⟨by decide, by rfl, by decide⟩
